import Mathlib

set_option maxHeartbeats 1000000
set_option maxRecDepth 10000

/- Shallow embedding of the resilience layer of the batch processor
   (RateLimiter, ConcurrencyLimiter, UploadLimiter, SimpleCircuitBreaker and
   the per-job retry pipeline processPrompt). Time is modeled by passing the
   current clock value explicitly. JS numbers are modeled as rationals where
   fractional arithmetic matters and as Nat or Int elsewhere. -/

/-- Lowercase of a string, mirroring message.toLowerCase in the source. -/
def strToLower (s : String) : String :=
  String.mk (s.data.map Char.toLower)

/-- Substring test, mirroring String.prototype.includes in the source. -/
def strContains (hay needle : String) : Bool :=
  hay.data.tails.any (fun t => needle.data.isPrefixOf t)

/-- First n characters of a string, mirroring substring(0, n) in the source. -/
def strTake (s : String) (n : Nat) : String :=
  String.mk (s.data.take n)

/-- State of SimpleCircuitBreaker. The initial null lastFailure of the source
is modeled as the timestamp 0, matching the JS coercion of null to 0 inside
the subtraction in canProceed. -/
structure SimpleCircuitBreaker where
  failures : Nat
  lastFailure : Int
  threshold : Nat
  cooldownMs : Int
  totalBreaks : Nat
deriving DecidableEq

/-- canProceed of the source: true while failures are below the threshold;
once at or past it, true (with an auto-reset of the counter) exactly when
strictly more than cooldownMs elapsed since the last failure, else false.
The returned state carries the possible auto-reset. -/
def SimpleCircuitBreaker.canProceed (s : SimpleCircuitBreaker) (now : Int) :
    Bool × SimpleCircuitBreaker :=
  if s.failures < s.threshold then (true, s)
  else
    let timeSinceFailure := now - s.lastFailure
    if timeSinceFailure > s.cooldownMs then (true, { s with failures := 0 })
    else (false, s)

/-- recordFailure of the source: increment the counter, stamp the time, and
bump totalBreaks whenever the incremented counter is at or past the
threshold (the source checks failures greater-or-equal threshold after the
increment). -/
def SimpleCircuitBreaker.recordFailure (s : SimpleCircuitBreaker) (now : Int) :
    SimpleCircuitBreaker :=
  if s.threshold ≤ s.failures + 1 then
    { s with failures := s.failures + 1, lastFailure := now,
             totalBreaks := s.totalBreaks + 1 }
  else
    { s with failures := s.failures + 1, lastFailure := now }

/-- recordSuccess of the source: reset the counter when it is positive. -/
def SimpleCircuitBreaker.recordSuccess (s : SimpleCircuitBreaker) :
    SimpleCircuitBreaker :=
  if 0 < s.failures then { s with failures := 0 } else s

/-- State of RateLimiter (token bucket for the Gemini dependency). -/
structure RateLimiter where
  rpm : ℚ
  tokens : ℚ
  lastRefill : ℚ
  totalRequests : Nat
  totalWaitTime : ℚ
deriving DecidableEq

/-- acquire of the source, at clock value now. Returns the new state and the
time slept (0 when a token was immediately available). -/
def RateLimiter.acquire (s : RateLimiter) (now : ℚ) : RateLimiter × ℚ :=
  let elapsed := now - s.lastRefill
  let tokens1 := min s.rpm (s.tokens + elapsed / 60000 * s.rpm)
  let lastRefill1 := if 1000 ≤ elapsed then now else s.lastRefill
  if 1 ≤ tokens1 then
    ({ s with tokens := tokens1 - 1, lastRefill := lastRefill1,
              totalRequests := s.totalRequests + 1 }, 0)
  else
    let waitTime := (1 - tokens1) / s.rpm * 60000
    ({ s with tokens := 0, lastRefill := lastRefill1,
              totalRequests := s.totalRequests + 1,
              totalWaitTime := s.totalWaitTime + waitTime }, waitTime)

/-- Refill credited to the bucket by a single acquire call: the actual
increase of the token count before the consumption step. -/
def RateLimiter.credit (s : RateLimiter) (now : ℚ) : ℚ :=
  min s.rpm (s.tokens + (now - s.lastRefill) / 60000 * s.rpm) - s.tokens

/-- Fold a sequence of acquire calls at the given clock values, accumulating
the total refill credited across the sequence. -/
def RateLimiter.acquireSeq (s : RateLimiter) (ts : List ℚ) : RateLimiter × ℚ :=
  ts.foldl (fun p t => ((p.1.acquire t).1, p.2 + p.1.credit t)) (s, 0)

/-- State of the ConcurrencyLimiter scheduling model. The cooperative JS
event loop makes the check-and-increment of run atomic, a release decrements
running and wakes the head of the FIFO waiter queue, and the woken waiter
rechecks the bound before taking the slot. running holds the tasks currently
executing, queue the waiters in arrival order, granted the historical order
in which slots were granted, finished the completion order. -/
structure ConcurrencyLimiter where
  max : Nat
  running : List Nat
  queue : List Nat
  granted : List Nat
  finished : List Nat
  totalExecuted : Nat
deriving DecidableEq

def ConcurrencyLimiter.init (maxConcurrent : Nat) : ConcurrencyLimiter :=
  ⟨maxConcurrent, [], [], [], [], 0⟩

/-- A task entering run: it takes a slot at once when running is below the
bound, otherwise it appends itself to the FIFO waiter queue. -/
def ConcurrencyLimiter.submit (s : ConcurrencyLimiter) (t : Nat) :
    ConcurrencyLimiter :=
  if s.running.length < s.max then
    { s with running := s.running ++ [t], granted := s.granted ++ [t] }
  else
    { s with queue := s.queue ++ [t] }

def ConcurrencyLimiter.submitAll (s : ConcurrencyLimiter) (ts : List Nat) :
    ConcurrencyLimiter :=
  ts.foldl ConcurrencyLimiter.submit s

/-- A running task finishing with outcome ok. The cleanup path of run is
unconditional: decrement running (here: remove the task) and wake the first
queued waiter, which rechecks the bound and either takes the freed slot or
requeues. totalExecuted counts only successful bodies, as in the source. -/
def ConcurrencyLimiter.complete (s : ConcurrencyLimiter) (t : Nat) (ok : Bool) :
    ConcurrencyLimiter :=
  if t ∈ s.running then
    let s1 := { s with running := s.running.erase t,
                       finished := s.finished ++ [t],
                       totalExecuted :=
                         if ok then s.totalExecuted + 1 else s.totalExecuted }
    match s1.queue with
    | [] => s1
    | w :: rest =>
      if s1.running.length < s1.max then
        { s1 with queue := rest, running := s1.running ++ [w],
                  granted := s1.granted ++ [w] }
      else
        { s1 with queue := rest ++ [w] }
  else s

def ConcurrencyLimiter.runSeq (s : ConcurrencyLimiter)
    (cs : List (Nat × Bool)) : ConcurrencyLimiter :=
  cs.foldl (fun s c => s.complete c.1 c.2) s

/-- Validity of a completion schedule: each step completes a task that is
actually running at that point. -/
def validSeq : ConcurrencyLimiter → List (Nat × Bool) → Bool
  | _, [] => true
  | s, c :: rest => s.running.contains c.1 && validSeq (s.complete c.1 c.2) rest

/-- Invariant of the ConcurrencyLimiter model relative to the arrival list
arr: the bound is respected, the queue is only populated while the gate is
full, slots were granted in arrival order (granted followed by the still
queued waiters reads back the arrival list), and every arrival is in exactly
one of running, queue or finished. -/
def climInv (arr : List Nat) (s : ConcurrencyLimiter) : Prop :=
  s.running.length ≤ s.max ∧
  (s.queue ≠ [] → s.running.length = s.max) ∧
  s.granted ++ s.queue = arr ∧
  s.running.length + s.queue.length + s.finished.length = arr.length

/-- State of UploadLimiter. The waiter queue of acquireUploadSlot is not
modeled here: wrapFetch is analyzed from the point where its slot
acquisition has succeeded. -/
structure UploadLimiter where
  max : Nat
  baseTimeout : ℚ
  fallbackConcurrency : Nat
  uploading : Nat
  recentUploadTimes : List ℚ
  totalUploads : Nat
  slowConnectionDetected : Bool
deriving DecidableEq

/-- Last n elements of a list, mirroring Array.prototype.slice(-n). -/
def lastSlice (n : Nat) (l : List ℚ) : List ℚ :=
  l.drop (l.length - n)

/-- Sum of a list of durations, mirroring reduce with addition from 0. -/
def listSum (l : List ℚ) : ℚ :=
  l.foldl (fun a b => a + b) 0

/-- getAdaptiveTimeout of the source: the base timeout below 3 samples,
otherwise the double of the average of the last 5 samples, clamped into the
band from baseTimeout up to 60000. -/
def UploadLimiter.getAdaptiveTimeout (s : UploadLimiter) : ℚ :=
  if s.recentUploadTimes.length < 3 then s.baseTimeout
  else
    Max.max s.baseTimeout
      (Min.min (listSum (lastSlice 5 s.recentUploadTimes) /
                  ((lastSlice 5 s.recentUploadTimes).length : ℚ) * 2) 60000)

/-- Average of the last three samples, mirroring slice(-3) summed over 3. -/
def lastThreeAvg (l : List ℚ) : ℚ :=
  listSum (lastSlice 3 l) / 3

/-- recordUploadTime of the source: push the sample, evict the oldest past
10 samples, then apply the 20s/15s hysteresis on the average of the last 3
samples once at least 3 samples exist. -/
def UploadLimiter.recordUploadTime (s : UploadLimiter) (durationMs : ℚ) :
    UploadLimiter :=
  let times1 := s.recentUploadTimes ++ [durationMs]
  let times2 := if 10 < times1.length then times1.tail else times1
  let s1 := { s with recentUploadTimes := times2 }
  if 3 ≤ times2.length then
    if 20000 < lastThreeAvg times2 ∧ s1.slowConnectionDetected = false then
      { s1 with slowConnectionDetected := true, max := s1.fallbackConcurrency }
    else if lastThreeAvg times2 < 15000 ∧ s1.slowConnectionDetected = true then
      { s1 with slowConnectionDetected := false,
                max := s1.fallbackConcurrency + 1 }
    else s1
  else s1

/-- One guarded release attempt of wrapFetch, shared between the timeout
fallback, the completion path and the error path: release the slot and count
the upload only when the one-shot slotReleased flag is still unset. The Nat
component counts how many releases actually happened. -/
def releaseOnce (st : UploadLimiter × Bool × Nat) : UploadLimiter × Bool × Nat :=
  let s := st.1
  if st.2.1 = false then
    ({ s with uploading := s.uploading - 1, totalUploads := s.totalUploads + 1 },
     true, st.2.2 + 1)
  else st

/-- Possible fates of the wrapped fetch call: it resolves after durationMs,
rejects after durationMs, or never settles. -/
inductive FetchOutcome where
  | resolves (durationMs : ℚ)
  | rejects (durationMs : ℚ)
  | hangs
deriving DecidableEq

/-- wrapFetch of the source, from the point where the slot was acquired.
The timeout fallback fires before the fetch settles exactly when the settle
time is strictly past the adaptive timeout (and always when the fetch hangs);
each release site runs through the one-shot guard. On a resolved fetch the
sample min(duration, timeout) is recorded; a rejected fetch records nothing.
Returns the final state, the number of slot releases performed, and the
recorded sample if any. -/
def UploadLimiter.wrapFetch (s : UploadLimiter) (outcome : FetchOutcome) :
    UploadLimiter × Nat × Option ℚ :=
  let s1 : UploadLimiter := { s with uploading := s.uploading + 1 }
  let timeout := s1.getAdaptiveTimeout
  match outcome with
  | FetchOutcome.hangs =>
    let r := releaseOnce (s1, false, 0)
    (r.1, r.2.2, none)
  | FetchOutcome.resolves d =>
    let st1 := if timeout < d then releaseOnce (s1, false, 0) else (s1, false, 0)
    let r := releaseOnce st1
    (r.1.recordUploadTime (min d timeout), r.2.2, some (min d timeout))
  | FetchOutcome.rejects d =>
    let st1 := if timeout < d then releaseOnce (s1, false, 0) else (s1, false, 0)
    let r := releaseOnce st1
    (r.1, r.2.2, none)

/-- Observable actions of a single processPrompt invocation. -/
inductive Event where
  | breakerCheck (ok : Bool)
  | geminiAcquire
  | geminiCall
  | fetchPromptImage
  | generateCall (attempt : Nat)
  | sleep (ms : Nat)
  | download (url : String)
  | airtableSave (field : String)
  | videoCall (attempt : Nat)
  | savedError (msg : String)
  | progress (ok : Bool)
  | breakerSuccess
  | breakerFailure
deriving DecidableEq

/-- Retryability of a generation failure in the inner retry loop of
processPrompt: a 524 code, a message containing timeout (case folded), or a
502, 503 or 504 status substring. -/
def isRetryableGen (msg : String) : Bool :=
  strContains msg "524" || strContains (strToLower msg) "timeout" ||
    strContains msg "502" || strContains msg "503" || strContains msg "504"

/-- Retryability of a video generation failure: only 524 or timeout. -/
def isRetryableVideo (msg : String) : Bool :=
  strContains msg "524" || strContains (strToLower msg) "timeout"

/-- Transience classification of the outer catch of processPrompt: the
retryable generation signals plus the too many subrequests signal of the
intermediary. The source matches the literal substring too many subrequests
on the lowercased message. -/
def isTransientError (msg : String) : Bool :=
  strContains msg "524" || strContains (strToLower msg) "timeout" ||
    strContains (strToLower msg) "too many subrequests" ||
    strContains msg "502" || strContains msg "503" || strContains msg "504"

/-- Backoff delay table of the generation retry loop, in ms. -/
def backoffDelays : List Nat := [1000, 2000, 4000]

/-- The generation retry loop of processPrompt: attempts are numbered from 1
and capped at 3; a retryable failure on an attempt below 3 sleeps the
backoff entry indexed by attempt - 1 and retries, any other failure stops
the loop with that error. The first component records the generate calls and
sleeps in order; the fuel argument only feeds the recursion and never runs
out when starting from fuel 3, attempt 1. -/
def genLoop (g : Nat → Except String (List String)) :
    Nat → Nat → List Event × Except String (List String)
  | 0, _ => ([], Except.error "retry loop out of fuel")
  | fuel + 1, attempt =>
    match g attempt with
    | Except.ok imgs => ([Event.generateCall attempt], Except.ok imgs)
    | Except.error msg =>
      if isRetryableGen msg = true ∧ attempt < 3 then
        let rest := genLoop g fuel (attempt + 1)
        (Event.generateCall attempt ::
           Event.sleep (backoffDelays.getD (attempt - 1) 0) :: rest.1, rest.2)
      else ([Event.generateCall attempt], Except.error msg)

/-- The generation retry loop as entered by processPrompt. -/
def runGeneration (g : Nat → Except String (List String)) :
    List Event × Except String (List String) :=
  genLoop g 3 1

/-- The video retry loop of processPrompt: at most 2 attempts, a fixed 5000
ms delay, retryable set restricted to 524 and timeout. -/
def videoLoop (v : Nat → Except String String) :
    Nat → Nat → List Event × Except String String
  | 0, _ => ([], Except.error "video retry loop out of fuel")
  | fuel + 1, attempt =>
    match v attempt with
    | Except.ok url => ([Event.videoCall attempt], Except.ok url)
    | Except.error msg =>
      if isRetryableVideo msg = true ∧ attempt < 2 then
        let rest := videoLoop v fuel (attempt + 1)
        (Event.videoCall attempt :: Event.sleep 5000 :: rest.1, rest.2)
      else ([Event.videoCall attempt], Except.error msg)

/-- Number of generate calls recorded in an event list. -/
def genCalls (evs : List Event) : Nat :=
  (evs.filter fun e => match e with
    | Event.generateCall _ => true
    | _ => false).length

/-- The sleep durations recorded in an event list, in order. -/
def genSleeps (evs : List Event) : List Nat :=
  evs.filterMap fun e => match e with
    | Event.sleep d => some d
    | _ => none

/-- Run configuration fields of processPrompt that steer its control flow. -/
structure GenConfig where
  numImages : Nat
  enableVideo : Bool
  hasGeminiKey : Bool
deriving DecidableEq

/-- The job record fields read by processPrompt. -/
structure PromptRecord where
  id : String
  prompt : Option String
  videoPrompt : Option String
  existingImages : List String
  promptImage : List String
deriving DecidableEq

/-- Outcomes of the external calls a processPrompt invocation can make. The
gemini field bundles both the reference image download and the analysis call
of analyzeImageWithGemini; generate and videoGen give the provider outcome
of each numbered attempt; the save fields give the outcome of the
corresponding Airtable updates. -/
structure Env where
  gemini : Except String String
  savePrompt : Except String Unit
  promptImageFetch : Except String Bool
  generate : Nat → Except String (List String)
  saveImages : Except String Unit
  videoGen : Nat → Except String String
  saveVideo : Except String Unit
  saveVideoError : Except String Unit

/-- Result of a processPrompt invocation: the returned success flag, the
skipErrorSave marker of the transient and breaker-open paths, the breaker
state after the call and the recorded events. -/
structure ProcResult where
  success : Bool
  skipErrorSave : Bool
  breaker : SimpleCircuitBreaker
  events : List Event
deriving DecidableEq

/-- Reference preparation phase of processPrompt for a job without existing
images: when a prompt image is attached, either the Gemini analysis runs
(rate limiter acquire, analysis call, prompt update persisted, the analyzed
image reused as the extra reference) or the image is fetched directly; any
thrown error aborts the phase. Without a prompt image nothing happens. -/
def prepRefs (cfg : GenConfig) (rec : PromptRecord) (env : Env) :
    List Event × Except String Unit :=
  if 0 < rec.promptImage.length then
    if cfg.hasGeminiKey then
      match env.gemini with
      | Except.error m => ([Event.geminiAcquire, Event.geminiCall], Except.error m)
      | Except.ok _ =>
        match env.savePrompt with
        | Except.error m =>
          ([Event.geminiAcquire, Event.geminiCall, Event.airtableSave "Prompt"],
           Except.error m)
        | Except.ok _ =>
          ([Event.geminiAcquire, Event.geminiCall, Event.airtableSave "Prompt"],
           Except.ok ())
    else
      match env.promptImageFetch with
      | Except.error m => ([Event.fetchPromptImage], Except.error m)
      | Except.ok _ => ([Event.fetchPromptImage], Except.ok ())
  else ([], Except.ok ())

/-- Image phase of processPrompt: a job with existing images skips
generation and keeps them; otherwise references are prepared, the retry loop
runs, the produced images are downloaded best effort and saved together with
a clear of the previous error field. Failures abort with the thrown
message. -/
def imagesOrGenerate (cfg : GenConfig) (rec : PromptRecord) (env : Env) :
    List Event × Except String (List String) :=
  if 0 < rec.existingImages.length then
    ([], Except.ok rec.existingImages)
  else
    match prepRefs cfg rec env with
    | (evs, Except.error m) => (evs, Except.error m)
    | (evs, Except.ok _) =>
      match runGeneration env.generate with
      | (gevs, Except.error m) => (evs ++ gevs, Except.error m)
      | (gevs, Except.ok imgs) =>
        let devs := imgs.map Event.download
        match env.saveImages with
        | Except.error m =>
          (evs ++ gevs ++ devs ++ [Event.airtableSave "Generated Images"],
           Except.error m)
        | Except.ok _ =>
          (evs ++ gevs ++ devs ++ [Event.airtableSave "Generated Images"],
           Except.ok imgs)

/-- Video phase of processPrompt when video is enabled: the video retry loop
runs; on success the video is downloaded best effort and saved; a video
failure (or a failure of the video save) is caught separately and written to
the error field without failing the job, though a failure of that error
write itself escapes to the outer catch. -/
def videoPhase (cfg : GenConfig) (env : Env) : List Event × Except String Unit :=
  if cfg.enableVideo then
    match videoLoop env.videoGen 2 1 with
    | (vevs, Except.ok url) =>
      match env.saveVideo with
      | Except.ok _ =>
        (vevs ++ [Event.download url, Event.airtableSave "Generated_Videos"],
         Except.ok ())
      | Except.error m =>
        match env.saveVideoError with
        | Except.ok _ =>
          (vevs ++ [Event.download url, Event.airtableSave "Generated_Videos",
            Event.savedError ("Video generation failed: " ++ m)], Except.ok ())
        | Except.error m2 =>
          (vevs ++ [Event.download url, Event.airtableSave "Generated_Videos",
            Event.savedError ("Video generation failed: " ++ m)], Except.error m2)
    | (vevs, Except.error m) =>
      match env.saveVideoError with
      | Except.ok _ =>
        (vevs ++ [Event.savedError ("Video generation failed: " ++ m)],
         Except.ok ())
      | Except.error m2 =>
        (vevs ++ [Event.savedError ("Video generation failed: " ++ m)],
         Except.error m2)
  else ([], Except.ok ())

/-- processPrompt of the source: breaker gate, image phase, video phase,
then the outcome paths. A success increments the progress counter and feeds
recordSuccess. A thrown error is classified by isTransientError: transient
errors leave the store untouched and only count as a run failure, all others
feed recordFailure and persist the first 200 characters of the message. -/
def processPrompt (cb : SimpleCircuitBreaker) (cfg : GenConfig)
    (rec : PromptRecord) (env : Env) (now : Int) : ProcResult :=
  let c := cb.canProceed now
  if c.1 = false then
    { success := false, skipErrorSave := true, breaker := c.2,
      events := [Event.breakerCheck false] }
  else
    let cb1 := c.2
    let body : List Event × Except String Unit :=
      match imagesOrGenerate cfg rec env with
      | (evs, Except.error m) => (evs, Except.error m)
      | (evs, Except.ok _) =>
        match videoPhase cfg env with
        | (vevs, r) => (evs ++ vevs, r)
    match body with
    | (evs, Except.ok _) =>
      { success := true, skipErrorSave := false, breaker := cb1.recordSuccess,
        events := Event.breakerCheck true :: evs ++
          [Event.progress true, Event.breakerSuccess] }
    | (evs, Except.error m) =>
      if isTransientError m then
        { success := false, skipErrorSave := true, breaker := cb1,
          events := Event.breakerCheck true :: evs ++ [Event.progress false] }
      else
        { success := false, skipErrorSave := false,
          breaker := cb1.recordFailure now,
          events := Event.breakerCheck true :: evs ++
            [Event.breakerFailure, Event.savedError (strTake m 200),
             Event.progress false] }

/-- A fresh breaker with the production parameters (threshold 5, 60s). -/
def cbFresh : SimpleCircuitBreaker := ⟨0, 0, 5, 60000, 0⟩

/-- A breaker with one recorded failure, below the threshold. -/
def cbOne : SimpleCircuitBreaker := ⟨1, 0, 5, 60000, 0⟩

/-- A breaker sitting exactly at the threshold (open until cooldown). -/
def cbOpen : SimpleCircuitBreaker := ⟨5, 0, 5, 60000, 0⟩

/-- An upstream throttling rejection as surfaced by the FAL client code. -/
def msg429 : String := "FAL API error 429: Too Many Requests"

/-- An intermediary rate limit message carrying the too many subrequests
signal matched by the outer classification. -/
def msgSub : String := "Error: Too many subrequests"

/-- A 503 failure message as surfaced by the FAL client code. -/
def msg503 : String := "FAL API error 503: Service Unavailable"

/-- A 400 failure message as surfaced by the FAL client code. -/
def msg400 : String := "FAL API error 400: Bad Request"

/-- A generation oracle failing every attempt with a 503. -/
def gen503 : Nat → Except String (List String) :=
  fun _ => Except.error msg503

/-- A generation oracle failing every attempt with a 400. -/
def gen400 : Nat → Except String (List String) :=
  fun _ => Except.error msg400

/-- A 500 failure message: a 5xx status whose digits match none of the
literal substrings 502, 503, 504 checked by the retry classification. -/
def msg500 : String := "FAL API error 500: Internal Server Error"

/-- A generation oracle failing every attempt with a 500. -/
def gen500 : Nat → Except String (List String) :=
  fun _ => Except.error msg500

/-- An environment where every external call succeeds. -/
def envOk : Env :=
  { gemini := Except.ok "a description",
    savePrompt := Except.ok (),
    promptImageFetch := Except.ok true,
    generate := fun _ => Except.ok ["img-url-1"],
    saveImages := Except.ok (),
    videoGen := fun _ => Except.ok "vid-url-1",
    saveVideo := Except.ok (),
    saveVideoError := Except.ok () }

/-- The all-success environment with generation failing on a 429. -/
def env429 : Env := { envOk with generate := fun _ => Except.error msg429 }

/-- The all-success environment with generation failing on the intermediary
throttling signal. -/
def envSub : Env := { envOk with generate := fun _ => Except.error msgSub }

/-- Run configuration with video generation disabled. -/
def cfgNoVideo : GenConfig := ⟨6, false, false⟩

/-- Run configuration with video generation enabled. -/
def cfgVideo : GenConfig := ⟨6, true, false⟩

/-- A job with no existing images and no attached prompt image. -/
def recNoImages : PromptRecord := ⟨"recA", some "a prompt", none, [], []⟩

/-- A job whose record already holds a generated image. -/
def recExisting : PromptRecord := ⟨"recB", some "a prompt", none, ["old-img-url"], []⟩

/-- A rate limiter mid-run: capacity 10 per minute, 5 tokens, reference
timestamp 0. -/
def rlEx : RateLimiter := ⟨10, 5, 0, 0, 0⟩

/-- An upload limiter in its construction state of the source
(3 slots, 10s base timeout, fallback concurrency 2). -/
def ulBase : UploadLimiter := ⟨3, 10000, 2, 0, [], 0, false⟩

/-- The sample list update of recordUploadTime: push the new duration and
drop the oldest sample when more than 10 are held. -/
def pushSample (l : List ℚ) (d : ℚ) : List ℚ :=
  if 10 < (l ++ [d]).length then (l ++ [d]).tail else (l ++ [d])

/-- An upload limiter two slow samples away from entering slow mode. -/
def ulSlowReady : UploadLimiter := ⟨3, 10000, 2, 0, [21000, 22000], 0, false⟩

/-- An upload limiter in slow mode holding two fast samples. -/
def ulSlowActive : UploadLimiter := ⟨2, 10000, 2, 0, [9000, 9000], 0, true⟩

lemma SimpleCircuitBreaker.recordSuccess_eq (s : SimpleCircuitBreaker) :
    s.recordSuccess = { s with failures := 0 } := by
  unfold SimpleCircuitBreaker.recordSuccess
  split
  · rfl
  · rename_i h
    obtain ⟨f, lf, th, cd, tb⟩ := s
    simp only [SimpleCircuitBreaker.mk.injEq, and_true]
    simp only [not_lt, Nat.le_zero] at h
    omega

lemma SimpleCircuitBreaker.canProceed_below {s : SimpleCircuitBreaker}
    {now : Int} (h : s.failures < s.threshold) : s.canProceed now = (true, s) := by
  unfold SimpleCircuitBreaker.canProceed
  rw [if_pos h]

lemma recordFailure_fields (s : SimpleCircuitBreaker) (now : Int) :
    (s.recordFailure now).failures = s.failures + 1 ∧
    (s.recordFailure now).lastFailure = now ∧
    (s.recordFailure now).threshold = s.threshold ∧
    (s.recordFailure now).totalBreaks =
      s.totalBreaks + (if s.threshold ≤ s.failures + 1 then 1 else 0) := by
  unfold SimpleCircuitBreaker.recordFailure
  split <;> simp_all

lemma recordFailure_iter (now : Int) (s : SimpleCircuitBreaker)
    (h0 : s.failures = 0) (hth : 1 ≤ s.threshold) (k : Nat) :
    ((fun x => SimpleCircuitBreaker.recordFailure x now)^[k] s).failures = k ∧
    ((fun x => SimpleCircuitBreaker.recordFailure x now)^[k] s).threshold =
      s.threshold ∧
    ((fun x => SimpleCircuitBreaker.recordFailure x now)^[k] s).totalBreaks =
      s.totalBreaks + (k + 1 - s.threshold) := by
  induction k with
  | zero => simp [h0]; omega
  | succ k ih =>
    obtain ⟨hf, hthr, htb⟩ := ih
    rw [Function.iterate_succ_apply']
    obtain ⟨h1, _, h3, h4⟩ :=
      recordFailure_fields ((fun x => SimpleCircuitBreaker.recordFailure x now)^[k] s) now
    refine ⟨by rw [h1, hf], by rw [h3, hthr], ?_⟩
    rw [h4, htb, hf, hthr]
    split <;> omega

/-- Claim C4 (counterexample): six consecutive recordFailure calls on a
fresh breaker with threshold 5 raise totalBreaks from 0 to 2, so crossing
the threshold is not a one-time observable transition: the total-breaks
counter grows on every call at or past the threshold. -/
theorem recordFailure_totalBreaks_counterexample :
    ¬ (((fun s => SimpleCircuitBreaker.recordFailure s 0)^[6] cbFresh).totalBreaks
        ≤ cbFresh.totalBreaks + 1) := by decide

/-- Claim C4 (amended): recordFailure increments the failure counter and
stamps the failure time, and totalBreaks is incremented on every call whose
resulting count is at or past the threshold. Hence a run of k consecutive
recordFailure calls starting from a clean counter raises totalBreaks by
k + 1 - threshold (truncated subtraction), not by at most 1. -/
theorem recordFailure_spec_amended (s : SimpleCircuitBreaker) (now : Int) :
    ((s.recordFailure now).failures = s.failures + 1 ∧
     (s.recordFailure now).lastFailure = now ∧
     (s.recordFailure now).totalBreaks =
       s.totalBreaks + (if s.threshold ≤ s.failures + 1 then 1 else 0)) ∧
    (s.failures = 0 → 1 ≤ s.threshold → ∀ k,
      ((fun x => SimpleCircuitBreaker.recordFailure x now)^[k] s).totalBreaks =
        s.totalBreaks + (k + 1 - s.threshold)) := by
  obtain ⟨h1, h2, _, h4⟩ := recordFailure_fields s now
  refine ⟨⟨h1, h2, h4⟩, ?_⟩
  intro h0 hth k
  exact (recordFailure_iter now s h0 hth k).2.2

/-- Witness for the amended claim C4, at the production threshold 5: a run
of six failures yields totalBreaks 2. -/
theorem recordFailure_spec_witness :
    ((fun x => SimpleCircuitBreaker.recordFailure x 7)^[6] cbFresh).totalBreaks =
      cbFresh.totalBreaks + (6 + 1 - cbFresh.threshold) :=
  (recordFailure_spec_amended cbFresh 7).2 (by decide) (by decide) 6

/-- Claim C5: canProceed returns true whenever failures are below the
threshold; at or past it, it returns true and resets the counter exactly
when strictly more than cooldownMs elapsed since the last recorded failure
and returns false otherwise; equivalently the breaker is open iff failures
reached the threshold and the elapsed time is at most the cooldown; and a
single recordSuccess resets the counter to 0. -/
theorem canProceed_spec (s : SimpleCircuitBreaker) (now : Int) :
    (s.failures < s.threshold → s.canProceed now = (true, s)) ∧
    (s.threshold ≤ s.failures → s.cooldownMs < now - s.lastFailure →
      s.canProceed now = (true, { s with failures := 0 })) ∧
    (s.threshold ≤ s.failures → now - s.lastFailure ≤ s.cooldownMs →
      s.canProceed now = (false, s)) ∧
    ((s.canProceed now).1 = false ↔
      s.threshold ≤ s.failures ∧ now - s.lastFailure ≤ s.cooldownMs) ∧
    s.recordSuccess = { s with failures := 0 } := by
  have hrs := SimpleCircuitBreaker.recordSuccess_eq s
  simp only [SimpleCircuitBreaker.canProceed]
  by_cases h1 : s.failures < s.threshold
  · rw [if_pos h1]
    refine ⟨fun _ => rfl, ?_, ?_, ?_, hrs⟩
    · intro ha _; omega
    · intro ha _; omega
    · constructor
      · intro hfalse; simp at hfalse
      · rintro ⟨ha, _⟩; omega
  · rw [if_neg h1]
    by_cases h2 : now - s.lastFailure > s.cooldownMs
    · rw [if_pos h2]
      refine ⟨fun hc => absurd hc h1, fun _ _ => rfl, ?_, ?_, hrs⟩
      · intro _ hb; omega
      · constructor
        · intro hfalse; simp at hfalse
        · rintro ⟨_, hb⟩; omega
    · rw [if_neg h2]
      refine ⟨fun hc => absurd hc h1, ?_, fun _ _ => rfl, ?_, hrs⟩
      · intro _ hb; omega
      · constructor
        · intro _; exact ⟨by omega, by omega⟩
        · intro _; rfl

/-- Witness for claim C5: the breaker at the threshold is open right after
a failure and self-heals once the cooldown has elapsed. -/
theorem canProceed_spec_witness :
    cbOpen.canProceed 100000 = (true, { cbOpen with failures := 0 }) ∧
    cbOpen.canProceed 1000 = (false, cbOpen) :=
  ⟨(canProceed_spec cbOpen 100000).2.1 (by decide) (by decide),
   (canProceed_spec cbOpen 1000).2.2.1 (by decide) (by decide)⟩

/-- Claim C7 (counterexample): two acquire calls 500 ms and 999 ms after the
reference timestamp each credit the bucket for the whole window since
lastRefill, because sub-1000 ms calls never advance lastRefill; the total
refill credited (1499/6000 of a token) exceeds the claimed wall-clock bound
of elapsed times capacity over 60000 (999/6000 of a token). -/
theorem rateLimiter_refill_counterexample :
    (rlEx.acquireSeq [500, 999]).2 >
      (999 - rlEx.lastRefill) * rlEx.rpm / 60000 := by
  norm_num [RateLimiter.acquireSeq, RateLimiter.acquire, RateLimiter.credit,
    rlEx, List.foldl]

/-- Claim C7 (amended): every acquire preserves 0 le tokens le capacity, a
single call credits at least 0 and at most (now - lastRefill) times capacity
over 60000 tokens, and lastRefill advances (to now) exactly when at least
1000 ms elapsed since its last advance. The wall-clock bound summed over a
whole call sequence fails, as the counterexample shows, because windows
shorter than 1000 ms are credited repeatedly. -/
theorem rateLimiter_acquire_amended (s : RateLimiter) (now : ℚ)
    (hrpm : 0 ≤ s.rpm) (h0 : 0 ≤ s.tokens) (h1 : s.tokens ≤ s.rpm)
    (h2 : s.lastRefill ≤ now) :
    0 ≤ (s.acquire now).1.tokens ∧
    (s.acquire now).1.tokens ≤ s.rpm ∧
    0 ≤ s.credit now ∧
    s.credit now ≤ (now - s.lastRefill) * s.rpm / 60000 ∧
    (s.acquire now).1.lastRefill =
      (if 1000 ≤ now - s.lastRefill then now else s.lastRefill) := by
  have ha : 0 ≤ (now - s.lastRefill) / 60000 * s.rpm := by
    apply mul_nonneg _ hrpm
    apply div_nonneg _ (by norm_num)
    linarith
  have hmin1 : min s.rpm (s.tokens + (now - s.lastRefill) / 60000 * s.rpm) ≤
      s.rpm := min_le_left _ _
  have hmin2 : min s.rpm (s.tokens + (now - s.lastRefill) / 60000 * s.rpm) ≤
      s.tokens + (now - s.lastRefill) / 60000 * s.rpm := min_le_right _ _
  have hmin3 : s.tokens ≤
      min s.rpm (s.tokens + (now - s.lastRefill) / 60000 * s.rpm) :=
    le_min h1 (by linarith)
  have hdm : (now - s.lastRefill) / 60000 * s.rpm =
      (now - s.lastRefill) * s.rpm / 60000 := by ring
  have hc1 : 0 ≤ s.credit now := by
    unfold RateLimiter.credit; linarith
  have hc2 : s.credit now ≤ (now - s.lastRefill) * s.rpm / 60000 := by
    unfold RateLimiter.credit; rw [← hdm]; linarith
  have hacq : s.acquire now =
      (if 1 ≤ min s.rpm (s.tokens + (now - s.lastRefill) / 60000 * s.rpm) then
        ({ s with
            tokens := min s.rpm (s.tokens + (now - s.lastRefill) / 60000 * s.rpm) - 1,
            lastRefill := (if 1000 ≤ now - s.lastRefill then now else s.lastRefill),
            totalRequests := s.totalRequests + 1 }, 0)
      else
        ({ s with
            tokens := 0,
            lastRefill := (if 1000 ≤ now - s.lastRefill then now else s.lastRefill),
            totalRequests := s.totalRequests + 1,
            totalWaitTime := s.totalWaitTime +
              (1 - min s.rpm (s.tokens + (now - s.lastRefill) / 60000 * s.rpm)) /
                s.rpm * 60000 },
         (1 - min s.rpm (s.tokens + (now - s.lastRefill) / 60000 * s.rpm)) /
           s.rpm * 60000)) := rfl
  constructor
  · rw [hacq]
    by_cases hT : 1 ≤ min s.rpm (s.tokens + (now - s.lastRefill) / 60000 * s.rpm)
    · rw [if_pos hT]; dsimp only; linarith
    · rw [if_neg hT]
  constructor
  · rw [hacq]
    by_cases hT : 1 ≤ min s.rpm (s.tokens + (now - s.lastRefill) / 60000 * s.rpm)
    · rw [if_pos hT]; dsimp only; linarith
    · rw [if_neg hT]; dsimp only; exact hrpm
  refine ⟨hc1, hc2, ?_⟩
  rw [hacq]
  by_cases hT : 1 ≤ min s.rpm (s.tokens + (now - s.lastRefill) / 60000 * s.rpm)
  · rw [if_pos hT]
  · rw [if_neg hT]

/-- Witness for the amended claim C7 at a concrete state and clock. -/
theorem rateLimiter_acquire_witness :
    0 ≤ (rlEx.acquire 100).1.tokens ∧
    rlEx.credit 100 ≤ (100 - rlEx.lastRefill) * rlEx.rpm / 60000 := by
  have h := rateLimiter_acquire_amended rlEx 100 (by norm_num [rlEx])
    (by norm_num [rlEx]) (by norm_num [rlEx]) (by norm_num [rlEx])
  exact ⟨h.1, h.2.2.2.1⟩

lemma recordUploadTime_cases (s : UploadLimiter) (d : ℚ) :
    (s.recordUploadTime d).recentUploadTimes = pushSample s.recentUploadTimes d ∧
    ((s.recordUploadTime d).slowConnectionDetected, (s.recordUploadTime d).max) =
      (if 3 ≤ (pushSample s.recentUploadTimes d).length then
        if 20000 < lastThreeAvg (pushSample s.recentUploadTimes d) ∧
            s.slowConnectionDetected = false then
          (true, s.fallbackConcurrency)
        else if lastThreeAvg (pushSample s.recentUploadTimes d) < 15000 ∧
            s.slowConnectionDetected = true then
          (false, s.fallbackConcurrency + 1)
        else (s.slowConnectionDetected, s.max)
      else (s.slowConnectionDetected, s.max)) := by
  simp only [UploadLimiter.recordUploadTime, pushSample]
  split_ifs <;> simp_all

lemma recordUploadTime_uploading (s : UploadLimiter) (d : ℚ) :
    (s.recordUploadTime d).uploading = s.uploading := by
  simp only [UploadLimiter.recordUploadTime]
  split_ifs <;> rfl

lemma recordUploadTime_totalUploads (s : UploadLimiter) (d : ℚ) :
    (s.recordUploadTime d).totalUploads = s.totalUploads := by
  simp only [UploadLimiter.recordUploadTime]
  split_ifs <;> rfl

lemma recordUploadTime_recent (s : UploadLimiter) (d : ℚ) :
    (s.recordUploadTime d).recentUploadTimes = pushSample s.recentUploadTimes d :=
  (recordUploadTime_cases s d).1

/-- Claim C6: after every recordUploadTime call, if at least 3 samples are
held and the average of the last 3 is above 20000 while slow mode is off,
the limit drops to fallbackConcurrency and the flag turns on; if the average
of the last 3 is below 15000 while slow mode is on, the limit becomes
fallbackConcurrency + 1 and the flag clears; with fewer than 3 samples, or
an average inside the 15000 to 20000 band, neither flag nor limit moves. -/
theorem recordUploadTime_hysteresis (s : UploadLimiter) (d : ℚ) :
    ((s.recordUploadTime d).recentUploadTimes.length < 3 →
      (s.recordUploadTime d).slowConnectionDetected = s.slowConnectionDetected ∧
      (s.recordUploadTime d).max = s.max) ∧
    (3 ≤ (s.recordUploadTime d).recentUploadTimes.length →
      (20000 < lastThreeAvg (s.recordUploadTime d).recentUploadTimes →
        s.slowConnectionDetected = false →
        (s.recordUploadTime d).slowConnectionDetected = true ∧
        (s.recordUploadTime d).max = s.fallbackConcurrency) ∧
      (lastThreeAvg (s.recordUploadTime d).recentUploadTimes < 15000 →
        s.slowConnectionDetected = true →
        (s.recordUploadTime d).slowConnectionDetected = false ∧
        (s.recordUploadTime d).max = s.fallbackConcurrency + 1) ∧
      (15000 ≤ lastThreeAvg (s.recordUploadTime d).recentUploadTimes →
        lastThreeAvg (s.recordUploadTime d).recentUploadTimes ≤ 20000 →
        (s.recordUploadTime d).slowConnectionDetected = s.slowConnectionDetected ∧
        (s.recordUploadTime d).max = s.max)) := by
  obtain ⟨ht, hsm⟩ := recordUploadTime_cases s d
  rw [ht]
  constructor
  · intro hlen
    rw [if_neg (by omega)] at hsm
    rw [Prod.mk.injEq] at hsm
    exact hsm
  · intro hlen
    rw [if_pos hlen] at hsm
    refine ⟨?_, ?_, ?_⟩
    · intro havg hflag
      rw [if_pos ⟨havg, hflag⟩] at hsm
      rw [Prod.mk.injEq] at hsm
      exact hsm
    · intro havg hflag
      rw [if_neg (by rintro ⟨_, hx⟩; rw [hflag] at hx; cases hx),
        if_pos ⟨havg, hflag⟩] at hsm
      rw [Prod.mk.injEq] at hsm
      exact hsm
    · intro h15 h20
      rw [if_neg (by rintro ⟨hx, _⟩; linarith),
        if_neg (by rintro ⟨hx, _⟩; linarith)] at hsm
      rw [Prod.mk.injEq] at hsm
      exact hsm

/-- Witness for claim C6: a third slow sample averaging above 20s flips the
flag on and drops the limit to 2; in slow mode, a third fast sample
averaging below 15s clears the flag and restores the limit to 3. -/
theorem recordUploadTime_hysteresis_witness :
    ((ulSlowReady.recordUploadTime 23000).slowConnectionDetected = true ∧
     (ulSlowReady.recordUploadTime 23000).max = ulSlowReady.fallbackConcurrency) ∧
    ((ulSlowActive.recordUploadTime 9000).slowConnectionDetected = false ∧
     (ulSlowActive.recordUploadTime 9000).max =
       ulSlowActive.fallbackConcurrency + 1) := by
  have e1 : (ulSlowReady.recordUploadTime 23000).recentUploadTimes =
      [21000, 22000, 23000] := by
    rw [recordUploadTime_recent]
    simp [pushSample, ulSlowReady]
  have e2 : (ulSlowActive.recordUploadTime 9000).recentUploadTimes =
      [9000, 9000, 9000] := by
    rw [recordUploadTime_recent]
    simp [pushSample, ulSlowActive]
  refine ⟨((recordUploadTime_hysteresis ulSlowReady 23000).2
      (by rw [e1]; norm_num)).1
      (by rw [e1]; norm_num [lastThreeAvg, lastSlice, listSum, List.foldl]) rfl,
    ((recordUploadTime_hysteresis ulSlowActive 9000).2
      (by rw [e2]; norm_num)).2.1
      (by rw [e2]; norm_num [lastThreeAvg, lastSlice, listSum, List.foldl]) rfl⟩

/-- Claim C9: every wrapFetch invocation, whether the timeout fallback fires
first, the fetch resolves, or the fetch rejects, performs exactly one slot
release through the one-shot guard: the uploading counter ends where it
started (one increment, one decrement) and totalUploads grows by exactly
one. -/
theorem wrapFetch_release_once (s : UploadLimiter) (outcome : FetchOutcome) :
    (s.wrapFetch outcome).2.1 = 1 ∧
    (s.wrapFetch outcome).1.uploading = s.uploading ∧
    (s.wrapFetch outcome).1.totalUploads = s.totalUploads + 1 := by
  cases outcome with
  | hangs =>
    refine ⟨?_, ?_, ?_⟩ <;> simp [UploadLimiter.wrapFetch, releaseOnce]
  | resolves d =>
    refine ⟨?_, ?_, ?_⟩ <;>
      simp only [UploadLimiter.wrapFetch] <;> split_ifs <;>
      simp [releaseOnce, recordUploadTime_uploading, recordUploadTime_totalUploads]
  | rejects d =>
    refine ⟨?_, ?_, ?_⟩ <;>
      simp only [UploadLimiter.wrapFetch] <;> split_ifs <;>
      simp [releaseOnce]

/-- Claim C10: a wrapFetch whose wrapped fetch rejects records no latency
sample: the sample list, the slow-mode flag and the effective limit are all
unchanged (a hanging fetch records nothing either); only a resolving fetch
records a sample, namely min(actualDuration, adaptiveTimeout). -/
theorem wrapFetch_error_no_sample (s : UploadLimiter) (d : ℚ) :
    ((s.wrapFetch (FetchOutcome.rejects d)).1.recentUploadTimes =
       s.recentUploadTimes ∧
     (s.wrapFetch (FetchOutcome.rejects d)).1.slowConnectionDetected =
       s.slowConnectionDetected ∧
     (s.wrapFetch (FetchOutcome.rejects d)).1.max = s.max ∧
     (s.wrapFetch (FetchOutcome.rejects d)).2.2 = none) ∧
    (s.wrapFetch FetchOutcome.hangs).2.2 = none ∧
    ((s.wrapFetch (FetchOutcome.resolves d)).2.2 =
       some (min d s.getAdaptiveTimeout) ∧
     (s.wrapFetch (FetchOutcome.resolves d)).1.recentUploadTimes =
       pushSample s.recentUploadTimes (min d s.getAdaptiveTimeout)) := by
  have hto : ({ s with uploading := s.uploading + 1 } :
      UploadLimiter).getAdaptiveTimeout = s.getAdaptiveTimeout := rfl
  refine ⟨⟨?_, ?_, ?_, ?_⟩, ?_, ?_, ?_⟩ <;>
    simp only [UploadLimiter.wrapFetch, hto] <;> split_ifs <;>
    simp [releaseOnce, recordUploadTime_recent]

lemma genLoop_ok {g : Nat → Except String (List String)} {fuel attempt : Nat}
    {imgs : List String} (h : g attempt = Except.ok imgs) :
    genLoop g (fuel + 1) attempt = ([Event.generateCall attempt], Except.ok imgs) := by
  simp [genLoop, h]

lemma genLoop_stop {g : Nat → Except String (List String)} {fuel attempt : Nat}
    {m : String} (h : g attempt = Except.error m)
    (hc : ¬ (isRetryableGen m = true ∧ attempt < 3)) :
    genLoop g (fuel + 1) attempt = ([Event.generateCall attempt], Except.error m) := by
  simp only [genLoop, h]
  rw [if_neg hc]

lemma genLoop_retry {g : Nat → Except String (List String)} {fuel attempt : Nat}
    {m : String} (h : g attempt = Except.error m)
    (hr : isRetryableGen m = true) (ha : attempt < 3) :
    genLoop g (fuel + 1) attempt =
      (Event.generateCall attempt ::
         Event.sleep (backoffDelays.getD (attempt - 1) 0) ::
         (genLoop g fuel (attempt + 1)).1,
       (genLoop g fuel (attempt + 1)).2) := by
  simp only [genLoop, h]
  rw [if_pos ⟨hr, ha⟩]

lemma runGeneration_cases (g : Nat → Except String (List String)) :
    1 ≤ genCalls (runGeneration g).1 ∧
    genCalls (runGeneration g).1 ≤ 3 ∧
    genSleeps (runGeneration g).1 =
      backoffDelays.take (genCalls (runGeneration g).1 - 1) ∧
    (runGeneration g).2 = g (genCalls (runGeneration g).1) ∧
    (∀ a, 1 ≤ a → a < genCalls (runGeneration g).1 →
      ∃ m, g a = Except.error m ∧ isRetryableGen m = true) ∧
    (genCalls (runGeneration g).1 < 3 → ∀ m,
      (runGeneration g).2 = Except.error m → isRetryableGen m = false) := by
  unfold runGeneration
  cases h1 : g 1 with
  | ok v1 =>
    have e1 : genLoop g 3 1 = ([Event.generateCall 1], Except.ok v1) :=
      genLoop_ok h1
    have ea : (genLoop g 3 1).1 = [Event.generateCall 1] := by rw [e1]
    have eb : (genLoop g 3 1).2 = Except.ok v1 := by rw [e1]
    rw [ea, eb]
    have hc : genCalls [Event.generateCall 1] = 1 := rfl
    rw [hc]
    refine ⟨by omega, by omega, by decide, h1.symm, ?_, ?_⟩
    · intro a ha1 ha2; omega
    · intro _ m hm; exact absurd hm (by simp)
  | error m1 =>
    by_cases hr1 : isRetryableGen m1 = true
    · cases h2 : g 2 with
      | ok v2 =>
        have e2 : genLoop g 2 2 = ([Event.generateCall 2], Except.ok v2) :=
          genLoop_ok h2
        have e1 : genLoop g 3 1 = ([Event.generateCall 1, Event.sleep 1000,
            Event.generateCall 2], Except.ok v2) := by
          rw [genLoop_retry h1 hr1 (by omega), e2]; rfl
        have ea : (genLoop g 3 1).1 = [Event.generateCall 1, Event.sleep 1000,
            Event.generateCall 2] := by rw [e1]
        have eb : (genLoop g 3 1).2 = Except.ok v2 := by rw [e1]
        rw [ea, eb]
        have hc : genCalls [Event.generateCall 1, Event.sleep 1000,
            Event.generateCall 2] = 2 := rfl
        rw [hc]
        refine ⟨by omega, by omega, by decide, h2.symm, ?_, ?_⟩
        · intro a ha1 ha2
          have : a = 1 := by omega
          subst this
          exact ⟨m1, h1, hr1⟩
        · intro _ m hm; exact absurd hm (by simp)
      | error m2 =>
        by_cases hr2 : isRetryableGen m2 = true
        · cases h3 : g 3 with
          | ok v3 =>
            have e3 : genLoop g 1 3 = ([Event.generateCall 3], Except.ok v3) :=
              genLoop_ok h3
            have e2 : genLoop g 2 2 = ([Event.generateCall 2, Event.sleep 2000,
                Event.generateCall 3], Except.ok v3) := by
              rw [genLoop_retry h2 hr2 (by omega), e3]; rfl
            have e1 : genLoop g 3 1 = ([Event.generateCall 1, Event.sleep 1000,
                Event.generateCall 2, Event.sleep 2000, Event.generateCall 3],
                Except.ok v3) := by
              rw [genLoop_retry h1 hr1 (by omega), e2]; rfl
            have ea : (genLoop g 3 1).1 = [Event.generateCall 1,
                Event.sleep 1000, Event.generateCall 2, Event.sleep 2000,
                Event.generateCall 3] := by rw [e1]
            have eb : (genLoop g 3 1).2 = Except.ok v3 := by rw [e1]
            rw [ea, eb]
            have hc : genCalls [Event.generateCall 1, Event.sleep 1000,
                Event.generateCall 2, Event.sleep 2000,
                Event.generateCall 3] = 3 := rfl
            rw [hc]
            refine ⟨by omega, by omega, by decide, h3.symm, ?_, ?_⟩
            · intro a ha1 ha2
              have : a = 1 ∨ a = 2 := by omega
              rcases this with rfl | rfl
              · exact ⟨m1, h1, hr1⟩
              · exact ⟨m2, h2, hr2⟩
            · intro hlt; omega
          | error m3 =>
            have e3 : genLoop g 1 3 = ([Event.generateCall 3], Except.error m3) :=
              genLoop_stop h3 (by rintro ⟨_, hx⟩; omega)
            have e2 : genLoop g 2 2 = ([Event.generateCall 2, Event.sleep 2000,
                Event.generateCall 3], Except.error m3) := by
              rw [genLoop_retry h2 hr2 (by omega), e3]; rfl
            have e1 : genLoop g 3 1 = ([Event.generateCall 1, Event.sleep 1000,
                Event.generateCall 2, Event.sleep 2000, Event.generateCall 3],
                Except.error m3) := by
              rw [genLoop_retry h1 hr1 (by omega), e2]; rfl
            have ea : (genLoop g 3 1).1 = [Event.generateCall 1,
                Event.sleep 1000, Event.generateCall 2, Event.sleep 2000,
                Event.generateCall 3] := by rw [e1]
            have eb : (genLoop g 3 1).2 = Except.error m3 := by rw [e1]
            rw [ea, eb]
            have hc : genCalls [Event.generateCall 1, Event.sleep 1000,
                Event.generateCall 2, Event.sleep 2000,
                Event.generateCall 3] = 3 := rfl
            rw [hc]
            refine ⟨by omega, by omega, by decide, h3.symm, ?_, ?_⟩
            · intro a ha1 ha2
              have : a = 1 ∨ a = 2 := by omega
              rcases this with rfl | rfl
              · exact ⟨m1, h1, hr1⟩
              · exact ⟨m2, h2, hr2⟩
            · intro hlt; omega
        · have e2 : genLoop g 2 2 = ([Event.generateCall 2], Except.error m2) :=
            genLoop_stop h2 (by rintro ⟨hx, _⟩; exact hr2 hx)
          have e1 : genLoop g 3 1 = ([Event.generateCall 1, Event.sleep 1000,
              Event.generateCall 2], Except.error m2) := by
            rw [genLoop_retry h1 hr1 (by omega), e2]; rfl
          have ea : (genLoop g 3 1).1 = [Event.generateCall 1, Event.sleep 1000,
              Event.generateCall 2] := by rw [e1]
          have eb : (genLoop g 3 1).2 = Except.error m2 := by rw [e1]
          rw [ea, eb]
          have hc : genCalls [Event.generateCall 1, Event.sleep 1000,
              Event.generateCall 2] = 2 := rfl
          rw [hc]
          refine ⟨by omega, by omega, by decide, h2.symm, ?_, ?_⟩
          · intro a ha1 ha2
            have : a = 1 := by omega
            subst this
            exact ⟨m1, h1, hr1⟩
          · intro _ m hm
            injection hm with hmm
            subst hmm
            simpa using hr2
    · have e1 : genLoop g 3 1 = ([Event.generateCall 1], Except.error m1) :=
        genLoop_stop h1 (by rintro ⟨hx, _⟩; exact hr1 hx)
      have ea : (genLoop g 3 1).1 = [Event.generateCall 1] := by rw [e1]
      have eb : (genLoop g 3 1).2 = Except.error m1 := by rw [e1]
      rw [ea, eb]
      have hc : genCalls [Event.generateCall 1] = 1 := rfl
      rw [hc]
      refine ⟨by omega, by omega, by decide, h1.symm, ?_, ?_⟩
      · intro a ha1 ha2; omega
      · intro _ m hm
        injection hm with hmm
        subst hmm
        simpa using hr1

/-- Claim C2 (amended): the generation retry loop makes between 1 and 3
attempts; the delays slept are exactly the leading entries of the fixed
backoff table 1000, 2000, 4000 ms, one per retried attempt (so after the
failures of attempts 1 and 2 it sleeps 1000 then 2000 ms; the third table
entry can never be slept because attempt 3 is final); the surfaced outcome
is that of the final attempt; every non-final attempt failed with a
retryable signal, where retryable means the message contains 524, a timeout
substring (case folded), or one of the literal substrings 502, 503 or 504 -
not any 5xx status, as the counterexample with a 500 message shows; a run
that stops before attempt 3 with an error stopped on a non-retryable
signal, aborting immediately with no delay. In particular a constant 503
failure is attempted exactly 3 times, sleeping 1000 then 2000 ms, before
the failure surfaces, and a constant 400 failure aborts on attempt 1 with
no sleep. -/
theorem generationRetry_policy :
    (∀ g : Nat → Except String (List String),
      1 ≤ genCalls (runGeneration g).1 ∧
      genCalls (runGeneration g).1 ≤ 3 ∧
      genSleeps (runGeneration g).1 =
        backoffDelays.take (genCalls (runGeneration g).1 - 1) ∧
      (runGeneration g).2 = g (genCalls (runGeneration g).1) ∧
      (∀ a, 1 ≤ a → a < genCalls (runGeneration g).1 →
        ∃ m, g a = Except.error m ∧ isRetryableGen m = true) ∧
      (genCalls (runGeneration g).1 < 3 → ∀ m,
        (runGeneration g).2 = Except.error m → isRetryableGen m = false)) ∧
    genCalls (runGeneration gen503).1 = 3 ∧
    genSleeps (runGeneration gen503).1 = [1000, 2000] ∧
    (runGeneration gen503).2 = Except.error msg503 ∧
    genCalls (runGeneration gen400).1 = 1 ∧
    genSleeps (runGeneration gen400).1 = [] ∧
    (runGeneration gen400).2 = Except.error msg400 := by
  exact ⟨runGeneration_cases, by decide, by decide, by rfl, by decide,
    by decide, by rfl⟩

/-- Witness for claim C2, instantiating the universal part on the constant
503 oracle: its first attempt is a retryable failure. -/
theorem generationRetry_policy_witness :
    1 ≤ genCalls (runGeneration gen503).1 ∧
    ∃ m, gen503 1 = Except.error m ∧ isRetryableGen m = true :=
  ⟨(generationRetry_policy.1 gen503).1,
   (generationRetry_policy.1 gen503).2.2.2.2.1 1 (by omega)
     (by have h := generationRetry_policy.2.1; omega)⟩

lemma genLoop_no_savedError (g : Nat → Except String (List String)) :
    ∀ fuel attempt, ∀ e ∈ (genLoop g fuel attempt).1, ∀ msg,
      e ≠ Event.savedError msg := by
  intro fuel
  induction fuel with
  | zero => intro attempt e he; simp [genLoop] at he
  | succ fuel ih =>
    intro attempt e he msg
    cases hg : g attempt with
    | ok v =>
      rw [genLoop_ok hg] at he
      simp at he
      subst he
      simp
    | error m =>
      by_cases hc : isRetryableGen m = true ∧ attempt < 3
      · rw [genLoop_retry hg hc.1 hc.2] at he
        simp at he
        rcases he with rfl | rfl | he
        · simp
        · simp
        · exact ih (attempt + 1) e he msg
      · rw [genLoop_stop hg hc] at he
        simp at he
        subst he
        simp

/-- Claim C1 (counterexample): a generation failure with a 429 too many
requests message is not classified transient by the outer catch of
processPrompt (the source matches only the literal substring too many
subrequests): the error text is persisted on the job and the breaker failure
counter is incremented. -/
theorem outerClassification_429_counterexample :
    (processPrompt cbFresh cfgNoVideo recNoImages env429 0).success = false ∧
    (processPrompt cbFresh cfgNoVideo recNoImages env429 0).skipErrorSave = false ∧
    (processPrompt cbFresh cfgNoVideo recNoImages env429 0).breaker.failures =
      cbFresh.failures + 1 ∧
    Event.savedError (strTake msg429 200) ∈
      (processPrompt cbFresh cfgNoVideo recNoImages env429 0).events := by
  decide

/-- Claim C1 (amended): the signal the outer classification of processPrompt
treats as intermediary throttling is the literal substring too many
subrequests (case folded), not a 429 too many requests rejection. For every
job whose generation attempts all fail with a message carrying that
substring, the failure is transient: the job returns success false with
skipErrorSave set (tallied as a failure of this run only), no error text is
persisted, and the breaker state is untouched. -/
theorem outerClassification_transient_amended
    (cb : SimpleCircuitBreaker) (cfg : GenConfig) (rec : PromptRecord)
    (env : Env) (now : Int) (m : String)
    (hcb : cb.failures < cb.threshold)
    (himg : rec.existingImages = [])
    (hpi : rec.promptImage = [])
    (hgen : env.generate = fun _ => Except.error m)
    (hm : strContains (strToLower m) "too many subrequests" = true) :
    (processPrompt cb cfg rec env now).success = false ∧
    (processPrompt cb cfg rec env now).skipErrorSave = true ∧
    (processPrompt cb cfg rec env now).breaker = cb ∧
    ∀ e ∈ (processPrompt cb cfg rec env now).events, ∀ msg,
      e ≠ Event.savedError msg := by
  have hcp : cb.canProceed now = (true, cb) :=
    SimpleCircuitBreaker.canProceed_below hcb
  have htr : isTransientError m = true := by
    unfold isTransientError
    rw [hm]
    simp
  rcases hR : runGeneration env.generate with ⟨gevs, res⟩
  have hres : res = Except.error m := by
    have h := (runGeneration_cases env.generate).2.2.2.1
    rw [hR, hgen] at h
    simpa using h
  subst hres
  have hpr : prepRefs cfg rec env = ([], Except.ok ()) := by
    unfold prepRefs
    rw [if_neg (by rw [hpi]; simp)]
  have hio : imagesOrGenerate cfg rec env = ([] ++ gevs, Except.error m) := by
    unfold imagesOrGenerate
    rw [if_neg (by rw [himg]; simp), hpr, hR]
  have hresult : processPrompt cb cfg rec env now =
      { success := false, skipErrorSave := true, breaker := cb,
        events := Event.breakerCheck true :: ([] ++ gevs) ++
          [Event.progress false] } := by
    unfold processPrompt
    rw [hcp]
    dsimp only
    rw [if_neg (by simp), hio]
    dsimp only
    rw [if_pos htr]
  rw [hresult]
  refine ⟨rfl, rfl, rfl, ?_⟩
  intro e he msg
  simp only [List.nil_append, List.mem_append, List.mem_cons,
    List.mem_singleton] at he
  rcases he with (rfl | he) | hpe
  · simp
  · have hg : gevs = (genLoop env.generate 3 1).1 := by
      have := congrArg Prod.fst hR
      simpa [runGeneration] using this.symm
    rw [hg] at he
    exact genLoop_no_savedError env.generate 3 1 e he msg
  · rcases hpe with rfl | he2
    · simp
    · simp at he2

/-- Witness for the amended claim C1 on a concrete throttled run. -/
theorem outerClassification_transient_witness :
    (processPrompt cbFresh cfgNoVideo recNoImages envSub 0).skipErrorSave = true ∧
    (processPrompt cbFresh cfgNoVideo recNoImages envSub 0).breaker = cbFresh := by
  have h := outerClassification_transient_amended cbFresh cfgNoVideo recNoImages
    envSub 0 msgSub (by decide) rfl rfl rfl (by decide)
  exact ⟨h.2.1, h.2.2.1⟩

/-- Claim C3 (counterexample): a job with existing artifacts processed while
video generation is enabled and the breaker holds one failure does report
success and skips image generation, but a video provider call is still made
and the breaker state is mutated (recordSuccess resets the positive
counter), so breaker untouched and no provider calls made are both false as
stated. -/
theorem skipExisting_counterexample :
    (processPrompt cbOne cfgVideo recExisting envOk 0).success = true ∧
    Event.videoCall 1 ∈ (processPrompt cbOne cfgVideo recExisting envOk 0).events ∧
    (processPrompt cbOne cfgVideo recExisting envOk 0).breaker ≠ cbOne := by
  decide

/-- Claim C3 (amended): for every job whose record already holds artifact
URLs, processed with video generation disabled and the breaker below its
threshold, processPrompt skips generation, reports success, makes no
provider call and persists nothing (the only events are the breaker check,
the progress tick and the success recording); recordFailure is never fed,
but recordSuccess is, so the breaker ends with its counter reset to 0 - its
state is fully untouched only when the counter was already 0. -/
theorem skipExisting_amended (cb : SimpleCircuitBreaker) (cfg : GenConfig)
    (rec : PromptRecord) (env : Env) (now : Int)
    (hcb : cb.failures < cb.threshold)
    (hv : cfg.enableVideo = false)
    (himg : rec.existingImages ≠ []) :
    (processPrompt cb cfg rec env now).success = true ∧
    (processPrompt cb cfg rec env now).skipErrorSave = false ∧
    (processPrompt cb cfg rec env now).events =
      [Event.breakerCheck true, Event.progress true, Event.breakerSuccess] ∧
    (processPrompt cb cfg rec env now).breaker = { cb with failures := 0 } ∧
    (cb.failures = 0 → (processPrompt cb cfg rec env now).breaker = cb) := by
  have hcp : cb.canProceed now = (true, cb) :=
    SimpleCircuitBreaker.canProceed_below hcb
  have hio : imagesOrGenerate cfg rec env = ([], Except.ok rec.existingImages) := by
    unfold imagesOrGenerate
    rw [if_pos (List.length_pos.mpr himg)]
  have hvp : videoPhase cfg env = ([], Except.ok ()) := by
    unfold videoPhase
    rw [if_neg (by simp [hv])]
  have hresult : processPrompt cb cfg rec env now =
      { success := true, skipErrorSave := false, breaker := cb.recordSuccess,
        events := Event.breakerCheck true :: ([] ++ []) ++
          [Event.progress true, Event.breakerSuccess] } := by
    unfold processPrompt
    rw [hcp]
    dsimp only
    rw [if_neg (by simp), hio]
    dsimp only
    rw [hvp]
  rw [hresult]
  refine ⟨rfl, rfl, rfl, SimpleCircuitBreaker.recordSuccess_eq cb, ?_⟩
  intro h0
  rw [SimpleCircuitBreaker.recordSuccess_eq cb]
  obtain ⟨f, lf, th, cd, tb⟩ := cb
  simp only at h0
  rw [h0]

/-- Witness for the amended claim C3 on a concrete skipped job. -/
theorem skipExisting_witness :
    (processPrompt cbFresh cfgNoVideo recExisting envOk 0).success = true ∧
    (processPrompt cbFresh cfgNoVideo recExisting envOk 0).breaker = cbFresh := by
  have h := skipExisting_amended cbFresh cfgNoVideo recExisting envOk 0
    (by decide) rfl (by decide)
  exact ⟨h.1, h.2.2.2.2 rfl⟩

lemma climInv_init (L : Nat) : climInv [] (ConcurrencyLimiter.init L) := by
  refine ⟨by simp [ConcurrencyLimiter.init], by simp [ConcurrencyLimiter.init],
    by simp [ConcurrencyLimiter.init], by simp [ConcurrencyLimiter.init]⟩

lemma submit_max (s : ConcurrencyLimiter) (t : Nat) :
    (s.submit t).max = s.max := by
  unfold ConcurrencyLimiter.submit
  split_ifs <;> rfl

lemma submit_finished (s : ConcurrencyLimiter) (t : Nat) :
    (s.submit t).finished = s.finished := by
  unfold ConcurrencyLimiter.submit
  split_ifs <;> rfl

lemma submitAll_max (ts : List Nat) : ∀ s : ConcurrencyLimiter,
    (s.submitAll ts).max = s.max := by
  induction ts with
  | nil => intro s; rfl
  | cons t rest ih =>
    intro s
    have h1 : s.submitAll (t :: rest) = (s.submit t).submitAll rest := rfl
    rw [h1, ih, submit_max]

lemma submitAll_finished (ts : List Nat) : ∀ s : ConcurrencyLimiter,
    (s.submitAll ts).finished = s.finished := by
  induction ts with
  | nil => intro s; rfl
  | cons t rest ih =>
    intro s
    have h1 : s.submitAll (t :: rest) = (s.submit t).submitAll rest := rfl
    rw [h1, ih, submit_finished]

lemma complete_max (s : ConcurrencyLimiter) (t : Nat) (ok : Bool) :
    (s.complete t ok).max = s.max := by
  unfold ConcurrencyLimiter.complete
  by_cases ht : t ∈ s.running
  · rw [if_pos ht]
    cases hq : s.queue <;> simp [hq] <;> split_ifs <;> rfl
  · rw [if_neg ht]

lemma runSeq_max (cs : List (Nat × Bool)) : ∀ s : ConcurrencyLimiter,
    (s.runSeq cs).max = s.max := by
  induction cs with
  | nil => intro s; rfl
  | cons c rest ih =>
    intro s
    have h1 : s.runSeq (c :: rest) = (s.complete c.1 c.2).runSeq rest := rfl
    rw [h1, ih, complete_max]

lemma climInv_submit {arr : List Nat} {s : ConcurrencyLimiter} {t : Nat}
    (h : climInv arr s) : climInv (arr ++ [t]) (s.submit t) := by
  obtain ⟨h1, h2, h3, h4⟩ := h
  unfold ConcurrencyLimiter.submit
  split_ifs with hlt
  · have hq : s.queue = [] := by
      by_contra hq
      have := h2 hq
      omega
    rw [hq] at h3 h4
    simp only [List.append_nil] at h3
    refine ⟨?_, ?_, ?_, ?_⟩
    · simp only [List.length_append, List.length_singleton]
      omega
    · intro hqq
      exact absurd (by rw [hq] : s.queue = []) (by simp_all)
    · rw [hq]
      simp [h3]
    · simp only [List.length_append, List.length_singleton]
      rw [hq]
      simp at h4 ⊢
      omega
  · refine ⟨h1, ?_, ?_, ?_⟩
    · intro _
      show s.running.length = s.max
      omega
    · rw [← List.append_assoc, h3]
    · show s.running.length + (s.queue ++ [t]).length + s.finished.length =
        (arr ++ [t]).length
      simp only [List.length_append, List.length_singleton]
      omega

lemma climInv_submitAll (ts : List Nat) :
    ∀ (arr : List Nat) (s : ConcurrencyLimiter), climInv arr s →
      climInv (arr ++ ts) (s.submitAll ts) := by
  induction ts with
  | nil => intro arr s h; simpa [ConcurrencyLimiter.submitAll]
  | cons t rest ih =>
    intro arr s h
    have h1 : s.submitAll (t :: rest) = (s.submit t).submitAll rest := rfl
    rw [h1]
    have h2 := ih (arr ++ [t]) (s.submit t) (climInv_submit h)
    simpa using h2

lemma climInv_complete {arr : List Nat} {s : ConcurrencyLimiter} {t : Nat}
    {ok : Bool} (h : climInv arr s) (ht : t ∈ s.running) :
    climInv arr (s.complete t ok) ∧
    (s.complete t ok).finished.length = s.finished.length + 1 := by
  obtain ⟨h1, h2, h3, h4⟩ := h
  have herase : (s.running.erase t).length = s.running.length - 1 :=
    List.length_erase_of_mem ht
  have hrpos : 1 ≤ s.running.length :=
    List.length_pos.mpr (List.ne_nil_of_mem ht)
  unfold ConcurrencyLimiter.complete
  rw [if_pos ht]
  cases hq : s.queue with
  | nil =>
    simp only [hq]
    rw [hq] at h3 h4
    refine ⟨⟨?_, ?_, ?_, ?_⟩, ?_⟩
    · simp only [herase]
      omega
    · intro hqq
      simp at hqq
    · simpa using h3
    · simp only [herase, List.length_append, List.length_singleton]
      simp at h4 ⊢
      omega
    · simp
  | cons w rest =>
    have hfull : s.running.length = s.max := h2 (by rw [hq]; simp)
    simp only [hq]
    rw [if_pos (by simp only [herase]; omega)]
    rw [hq] at h3 h4
    refine ⟨⟨?_, ?_, ?_, ?_⟩, ?_⟩
    · simp only [List.length_append, List.length_singleton, herase]
      omega
    · intro hqq
      simp only [List.length_append, List.length_singleton, herase]
      omega
    · rw [List.append_assoc]
      simpa using h3
    · simp only [List.length_append, List.length_singleton, herase] at h4 ⊢
      simp at h4 ⊢
      omega
    · simp

lemma validSeq_take (k : Nat) : ∀ (cs : List (Nat × Bool))
    (s : ConcurrencyLimiter), validSeq s cs = true →
    validSeq s (cs.take k) = true := by
  induction k with
  | zero => intro cs s _; rfl
  | succ k ih =>
    intro cs s hv
    cases cs with
    | nil => rfl
    | cons c rest =>
      simp only [validSeq, Bool.and_eq_true] at hv
      simp only [List.take_succ_cons, validSeq, Bool.and_eq_true]
      exact ⟨hv.1, ih rest _ hv.2⟩

lemma climInv_runSeq {arr : List Nat} : ∀ (cs : List (Nat × Bool))
    (s : ConcurrencyLimiter), climInv arr s → validSeq s cs = true →
    climInv arr (s.runSeq cs) ∧
    (s.runSeq cs).finished.length = s.finished.length + cs.length := by
  intro cs
  induction cs with
  | nil => intro s h _; simpa [ConcurrencyLimiter.runSeq]
  | cons c rest ih =>
    intro s h hv
    simp only [validSeq, Bool.and_eq_true] at hv
    obtain ⟨hc, hv2⟩ := hv
    have hmem : c.1 ∈ s.running := by simpa using hc
    obtain ⟨h2, hlen⟩ := @climInv_complete arr s c.1 c.2 h hmem
    have h3 := ih (s.complete c.1 c.2) h2 hv2
    have hstep : s.runSeq (c :: rest) = (s.complete c.1 c.2).runSeq rest := rfl
    refine ⟨by rw [hstep]; exact h3.1, ?_⟩
    rw [hstep, h3.2, hlen]
    simp
    omega

lemma climInv_progress {arr : List Nat} {s : ConcurrencyLimiter}
    (h : climInv arr s) (hmax : 1 ≤ s.max)
    (hlt : s.finished.length < arr.length) : s.running ≠ [] := by
  obtain ⟨h1, h2, h3, h4⟩ := h
  intro hre
  rw [hre] at h1 h4
  simp at h4
  cases hqe : s.queue with
  | nil =>
    rw [hqe] at h4
    simp at h4
    omega
  | cons w rest =>
    have hfull := h2 (by rw [hqe]; simp)
    rw [hre] at hfull
    simp at hfull
    omega

lemma complete_outcome_eq (s : ConcurrencyLimiter) (t : Nat) :
    (s.complete t true).running = (s.complete t false).running ∧
    (s.complete t true).queue = (s.complete t false).queue ∧
    (s.complete t true).granted = (s.complete t false).granted ∧
    (s.complete t true).finished = (s.complete t false).finished := by
  unfold ConcurrencyLimiter.complete
  by_cases ht : t ∈ s.running
  · rw [if_pos ht, if_pos ht]
    cases hq : s.queue <;> simp [hq] <;> split_ifs <;> simp
  · rw [if_neg ht, if_neg ht]
    exact ⟨rfl, rfl, rfl, rfl⟩

/-- Claim C8: with limit L of at least 1 and N greater than L tasks all
submitted up front (as the batch driver does through Promise.all), under any
valid completion schedule: at most L tasks are in the running set after
every step (the bound is an invariant of every prefix); slots are granted in
FIFO order of arrival (the granted list is always a prefix of the arrival
order); the slot bookkeeping of a completing task is identical whether its
body succeeded or threw (the cleanup path is unconditional, only the
success counter differs); while any task is unfinished some task is running
(no deadlock); and after all N completions every task has finished, the gate
and queue are empty, and the grant order was exactly the arrival order. -/
theorem concurrencyLimiter_fifo_bound (L n : Nat) (cs : List (Nat × Bool))
    (hL : 1 ≤ L) (hN : L < n)
    (hv : validSeq ((ConcurrencyLimiter.init L).submitAll (List.range n)) cs
      = true) :
    (∀ k, (((ConcurrencyLimiter.init L).submitAll (List.range n)).runSeq
        (cs.take k)).running.length ≤ L) ∧
    (∀ k, ∃ j, (((ConcurrencyLimiter.init L).submitAll (List.range n)).runSeq
        (cs.take k)).granted = (List.range n).take j) ∧
    (∀ (s : ConcurrencyLimiter) (t : Nat),
      (s.complete t true).running = (s.complete t false).running ∧
      (s.complete t true).queue = (s.complete t false).queue ∧
      (s.complete t true).granted = (s.complete t false).granted ∧
      (s.complete t true).finished = (s.complete t false).finished) ∧
    (∀ k, k < n →
      (((ConcurrencyLimiter.init L).submitAll (List.range n)).runSeq
        (cs.take k)).finished.length = k →
      (((ConcurrencyLimiter.init L).submitAll (List.range n)).runSeq
        (cs.take k)).running ≠ []) ∧
    (cs.length = n →
      (((ConcurrencyLimiter.init L).submitAll (List.range n)).runSeq
        cs).finished.length = n ∧
      (((ConcurrencyLimiter.init L).submitAll (List.range n)).runSeq
        cs).running = [] ∧
      (((ConcurrencyLimiter.init L).submitAll (List.range n)).runSeq
        cs).queue = [] ∧
      (((ConcurrencyLimiter.init L).submitAll (List.range n)).runSeq
        cs).granted = List.range n) := by
  have hInv0 : climInv (List.range n)
      ((ConcurrencyLimiter.init L).submitAll (List.range n)) := by
    have h := climInv_submitAll (List.range n) [] (ConcurrencyLimiter.init L)
      (climInv_init L)
    simpa using h
  have hmax0 : ((ConcurrencyLimiter.init L).submitAll (List.range n)).max = L :=
    submitAll_max (List.range n) (ConcurrencyLimiter.init L)
  have hInvK : ∀ k, climInv (List.range n)
      (((ConcurrencyLimiter.init L).submitAll (List.range n)).runSeq
        (cs.take k)) := by
    intro k
    exact (climInv_runSeq (cs.take k) _ hInv0
      (validSeq_take k cs _ hv)).1
  refine ⟨?_, ?_, ?_, ?_, ?_⟩
  · intro k
    have h := (hInvK k).1
    rwa [runSeq_max, hmax0] at h
  · intro k
    have h := (hInvK k).2.2.1
    set g := (((ConcurrencyLimiter.init L).submitAll (List.range n)).runSeq
      (cs.take k)).granted
    set q := (((ConcurrencyLimiter.init L).submitAll (List.range n)).runSeq
      (cs.take k)).queue
    refine ⟨g.length, ?_⟩
    rw [← h]
    exact (List.take_left _ _).symm
  · intro s t
    exact complete_outcome_eq s t
  · intro k hk hfin
    apply climInv_progress (hInvK k)
    · rw [runSeq_max, hmax0]
      exact hL
    · rw [hfin]
      simpa using hk
  · intro hlen
    have h := climInv_runSeq cs _ hInv0 hv
    have hfin0 : ((ConcurrencyLimiter.init L).submitAll (List.range n)).finished
        = [] := by
      rw [submitAll_finished]
      rfl
    have hfinlen : (((ConcurrencyLimiter.init L).submitAll
        (List.range n)).runSeq cs).finished.length = n := by
      rw [h.2, hfin0, hlen]
      simp
    obtain ⟨h1, h2, h3, h4⟩ := h.1
    have hrange : (List.range n).length = n := List.length_range n
    have hrun0 : (((ConcurrencyLimiter.init L).submitAll
        (List.range n)).runSeq cs).running.length = 0 := by omega
    have hq0 : (((ConcurrencyLimiter.init L).submitAll
        (List.range n)).runSeq cs).queue.length = 0 := by omega
    have hrun : (((ConcurrencyLimiter.init L).submitAll
        (List.range n)).runSeq cs).running = [] := List.length_eq_zero.mp hrun0
    have hq : (((ConcurrencyLimiter.init L).submitAll
        (List.range n)).runSeq cs).queue = [] := List.length_eq_zero.mp hq0
    refine ⟨hfinlen, hrun, hq, ?_⟩
    rw [hq] at h3
    simpa using h3

/-- Witness for claim C8 at limit 1 with 2 tasks completing in order. -/
theorem concurrencyLimiter_fifo_bound_witness :
    (((ConcurrencyLimiter.init 1).submitAll (List.range 2)).runSeq
      [(0, true), (1, false)]).finished.length = 2 ∧
    (((ConcurrencyLimiter.init 1).submitAll (List.range 2)).runSeq
      [(0, true), (1, false)]).granted = List.range 2 := by
  have h := concurrencyLimiter_fifo_bound 1 2 [(0, true), (1, false)]
    (by decide) (by decide) (by decide)
  exact ⟨(h.2.2.2.2 rfl).1, (h.2.2.2.2 rfl).2.2.2⟩

/-- Claim C2 (counterexample): a 500 failure carries a 5xx status, yet the
retry classification matches only the literal substrings 502, 503 and 504,
so it is not retryable: the loop aborts on attempt 1 with no delay instead
of retrying, refuting the claim that any 5xx status is retryable. -/
theorem generationRetry_5xx_counterexample :
    strContains msg500 "500" = true ∧
    isRetryableGen msg500 = false ∧
    genCalls (runGeneration gen500).1 = 1 ∧
    genSleeps (runGeneration gen500).1 = [] ∧
    (runGeneration gen500).2 = Except.error msg500 :=
  ⟨by decide, by decide, by decide, by decide, by rfl⟩
